import Mathlib

/-!
# pick: the encrypted credential safe

A shallow embedding of `cmd/safe/crypto.go` and `cmd/safe/safe.go`.

* Bytes are natural numbers below 256; a Go `string`/`[]byte` holding only
  ASCII text is the list of its byte values.
* The random source, the OpenPGP library, the file system, the terminal and
  the JSON codec are external: they appear as parameters.
* A loop that may run forever takes a fuel argument counting its iterations and
  yields `none` when the fuel is used up.
* A Go map is the list of its entries, read by first match, and `none` is the
  nil map; a method receiver is a non-nil pointer, the method handing back the
  struct as it leaves it.
* The clock (`time.Now().Unix()`) and the package variable `masterPassword` are
  passed in; `log.Fatal` and run-time panics are outcomes of their own.
-/

namespace Pick

/-! ## crypto.go : GeneratePassword -/

/-- The byte slice `chars` of `GeneratePassword`. Every character of the literal
is ASCII, so its bytes are its code points. The braces and the backquote of the
Go literal are written as escapes (`\x7b`, `\x7d`, `\x60`). -/
def chars : List Nat :=
  ("ABCDEFGHIJKLMNOPQRSTUVWXYZabcdefghijklmnopqrstuvwxyz0123456789!@#$%^&*()-_=+,.?/:;\x7b\x7d[]\x60~".toList).map
    Char.toNat

/-- The Go expression `byte(len(chars))`. -/
def charLen : Nat := chars.length % 256

/-- The Go expression `byte(256 - (256 % len(chars)))`. -/
def maxrb : Nat := (256 - (256 % chars.length)) % 256

/-- Behaviour of `rand.Reader` under the successive `io.ReadFull` calls of one
run: call number `k` either fails with an error or fills the whole buffer, and
then gives the byte stored at each buffer position. -/
abbrev RandReader (ε : Type) := Nat → Except ε (Nat → Nat)

/-- The call `io.ReadFull(rand.Reader, randomData)` number `k`, for a buffer of
`n` bytes: the error, or the new content of the buffer. -/
def readFull {ε : Type} (rd : RandReader ε) (k n : Nat) : Except ε (List Nat) :=
  match rd k with
  | .error e => .error e
  | .ok f => .ok ((List.range n).map fun j => f j % 256)

/-- Where the inner `for _, c := range randomData` loop stands when it stops. -/
inductive Scan where
  /-- The batch is used up; the outer loop goes on with this buffer and index. -/
  | running (passwordBuf : List Nat) (i : Nat)
  /-- The test `i == length` held: `return string(passwordBuf), nil`. -/
  | finished (passwordBuf : List Nat)
  /-- An index expression was out of range (a Go run-time panic). -/
  | outOfRange
  deriving DecidableEq, Repr

/-- The inner loop of `GeneratePassword` over the bytes of one batch. -/
def scanBatch (length : Nat) : List Nat → List Nat → Nat → Scan
  | [], passwordBuf, i => .running passwordBuf i
  | c :: rest, passwordBuf, i =>
    if c ≥ maxrb then scanBatch length rest passwordBuf i
    else
      match chars[c % charLen]? with
      | none => .outOfRange
      | some ch =>
        if i < passwordBuf.length then
          if i + 1 = length then .finished (passwordBuf.set i ch)
          else scanBatch length rest (passwordBuf.set i ch) (i + 1)
        else .outOfRange

/-- What a run of `GeneratePassword` ends with. -/
inductive GenOutcome (ε : Type) where
  /-- The function returned `(password, err)`. -/
  | returned (password : List Nat) (err : Option ε)
  /-- The function stopped on an index out of range. -/
  | indexPanic
  deriving DecidableEq, Repr

/-- The outer `for` loop of `GeneratePassword`; `k` counts the reads done. -/
def generateLoop {ε : Type} (rd : RandReader ε) (length : Nat) :
    Nat → Nat → List Nat → Nat → Option (GenOutcome ε)
  | 0, _, _, _ => none
  | fuel + 1, k, passwordBuf, i =>
    match readFull rd k (length + length / 4) with
    | .error e => some (.returned [] (some e))
    | .ok randomData =>
      match scanBatch length randomData passwordBuf i with
      | .running passwordBuf i => generateLoop rd length fuel (k + 1) passwordBuf i
      | .finished passwordBuf => some (.returned passwordBuf none)
      | .outOfRange => some .indexPanic

/-- The function `GeneratePassword(length)` run for at most `fuel` batches. -/
def GeneratePassword {ε : Type} (rd : RandReader ε) (length fuel : Nat) :
    Option (GenOutcome ε) :=
  generateLoop rd length fuel 0 (List.replicate length 0) 0

/-! ## safe.go : the credential map -/

/-- A Go `error`, kept as its message. -/
abbrev Error := String

/-- How a call ends: it returns, or `log.Fatal` prints the error and exits the
process, or a run-time panic stops it. -/
inductive Exec (α : Type) where
  /-- The call returned this value to its caller. -/
  | returned (a : α)
  /-- The call reached `log.Fatal(err)`: the process is terminated. -/
  | fatal (err : Error)
  /-- The call stopped on a run-time panic. -/
  | panicked
  deriving DecidableEq, Repr

/-- The struct `Credential`. -/
structure Credential where
  Alias : String
  Username : String
  Password : String
  CreatedOn : Int
  deriving DecidableEq, Repr

/-- The entries of a non-nil `map[string]Credential`. -/
abbrev CredMap := List (String × Credential)

/-- The struct `Safe`; `Data = none` is the nil map. -/
structure Safe where
  CreatedOn : Int
  CreatedBy : String
  Data : Option CredMap
  deriving DecidableEq, Repr

/-- The Go expression `v, ok := m[k]`: reading a nil map finds nothing. -/
def mapGet : Option CredMap → String → Option Credential
  | none, _ => none
  | some m, k => m.lookup k

/-- The Go statement `m[k] = v` on a non-nil map. -/
def mapSet (m : CredMap) (k : String) (v : Credential) : CredMap :=
  (k, v) :: m.filter fun e => e.1 != k

/-- The Go statement `delete(m, k)`: a no-op on a nil map. -/
def mapDelete : Option CredMap → String → Option CredMap
  | none, _ => none
  | some m, k => some (m.filter fun e => e.1 != k)

/-- The method `(*Safe).AddCredential`, with `time.Now().Unix()` given as `now`.
Returns the error and the safe as the call leaves it. -/
def AddCredential (safe : Safe) (aliasName username password : String) (now : Int) :
    Exec (Option Error × Safe) :=
  match mapGet safe.Data aliasName with
  | some _ => .returned (some ("Credential with alias \x27" ++ aliasName ++ "\x27 already exists"), safe)
  | none =>
    let credential : Credential := ⟨aliasName, username, password, now⟩
    match safe.Data with
    | none => .panicked
    | some m => .returned (none, { safe with Data := some (mapSet m aliasName credential) })

/-- The method `(*Safe).GetCredential`. -/
def GetCredential (safe : Safe) (aliasName : String) : Credential × Option Error :=
  match mapGet safe.Data aliasName with
  | none => (⟨"", "", "", 0⟩, some ("Credential with alias \x27" ++ aliasName ++ "\x27 does not exist"))
  | some cred => (cred, none)

/-- The method `(*Safe).RemoveCredential`. Returns the error and the safe as the
call leaves it. -/
def RemoveCredential (safe : Safe) (aliasName : String) : Option Error × Safe :=
  match mapGet safe.Data aliasName with
  | none => (some ("Credential with alias \x27" ++ aliasName ++ "\x27 does not exist"), safe)
  | some _ => (none, { safe with Data := mapDelete safe.Data aliasName })

/-! ## crypto.go : DecryptText and EncryptText -/

/-- The Go conversion `[]byte(s)`. -/
def bytesOf (s : String) : List Nat :=
  (s.data.flatMap String.utf8EncodeChar).map UInt8.toNat

/-- What a prompt function hands back: `([]byte, error)`, `none` being nil. -/
abbrev PromptReply := Option (List Nat) × Option Error

/-- A call of `openpgp.ReadMessage` as its prompt function sees it: the library
either returns `(md, err)` or invokes the prompt with arguments of its choice
and goes on from the reply. -/
inductive ReadMessage (κ μ : Type) where
  /-- The library returns `(md, nil)` or `(nil, err)`. -/
  | result (md : Except Error μ)
  /-- The library invokes `prompt(keys, symmetric)`. -/
  | ask (keys : List κ) (symmetric : Bool) (next : PromptReply → ReadMessage κ μ)

/-- The closure `prompt` of `DecryptText`; the captured variable `failed` is
passed in and handed back. -/
def prompt {κ : Type} (password : String) (failed : Bool) (_keys : List κ) (_symmetric : Bool) :
    PromptReply × Bool :=
  if failed then ((none, some "Unable to unlock safe with provided password"), failed)
  else ((some (bytesOf password), none), true)

/-- Runs a `ReadMessage` call against the closure `prompt`. Gives the library
result together with the replies the prompt gave, in order. -/
def runReadMessage {κ μ : Type} (password : String) :
    ReadMessage κ μ → Bool → Except Error μ × List PromptReply
  | .result md, _ => (md, [])
  | .ask keys symmetric next, failed =>
    let (reply, failed) := prompt password failed keys symmetric
    let (md, replies) := runReadMessage password (next reply) failed
    (md, reply :: replies)

/-- The OpenPGP and armor calls made by `DecryptText`. -/
structure Decryptor (β κ μ : Type) where
  /-- The call `armor.Decode(decbuf)`: the armor block or an error. -/
  armorDecode : String → Except Error β
  /-- The call `openpgp.ReadMessage(armorBlock.Body, nil, prompt, nil)`. -/
  readMessage : β → ReadMessage κ μ
  /-- The call `ioutil.ReadAll(md.UnverifiedBody)`, its bytes as a string. -/
  readAll : μ → Except Error String

/-- The function `DecryptText`, returning also the replies its prompt closure
gave during the call. -/
def DecryptTextTraced {β κ μ : Type} (lib : Decryptor β κ μ) (text password : String) :
    (String × Option Error) × List PromptReply :=
  match lib.armorDecode text with
  | .error err => (("", some err), [])
  | .ok armorBlock =>
    match runReadMessage password (lib.readMessage armorBlock) false with
    | (.error err, replies) => (("", some err), replies)
    | (.ok md, replies) =>
      match lib.readAll md with
      | .error err => (("", some err), replies)
      | .ok decryptedBuf => ((decryptedBuf, none), replies)

/-- The function `DecryptText`: `(decryptedText, err)`. -/
def DecryptText {β κ μ : Type} (lib : Decryptor β κ μ) (text password : String) :
    String × Option Error :=
  (DecryptTextTraced lib text password).1

/-- The OpenPGP and armor calls made by `EncryptText`, acting on a state `σ`
that holds `encbuf` and the two writers. -/
structure Encryptor (σ : Type) where
  /-- The state after `bytes.NewBuffer(nil)`. -/
  newBuffer : σ
  /-- The call `armor.Encode(encbuf, "PGP SIGNATURE", nil)`. -/
  armorEncode : σ → Except Error σ
  /-- The call `openpgp.SymmetricallyEncrypt(w, []byte(password), nil, nil)`. -/
  symmetricallyEncrypt : σ → List Nat → Except Error σ
  /-- The call `plaintext.Write([]byte(text))`. -/
  write : σ → List Nat → σ × Option Error
  /-- The call `plaintext.Close()`. -/
  closePlaintext : σ → σ
  /-- The call `w.Close()`. -/
  closeArmor : σ → σ
  /-- The call `encbuf.String()`. -/
  encbufString : σ → String

/-- The function `EncryptText`: `(encryptedText, err)`. -/
def EncryptText {σ : Type} (lib : Encryptor σ) (text password : String) : String × Option Error :=
  match lib.armorEncode lib.newBuffer with
  | .error err => ("", some err)
  | .ok st =>
    match lib.symmetricallyEncrypt st (bytesOf password) with
    | .error err => ("", some err)
    | .ok st =>
      let (st, err) := lib.write st (bytesOf text)
      let st := lib.closePlaintext st
      let st := lib.closeArmor st
      (lib.encbufString st, err)

/-! ## safe.go : Save and Load -/

/-- The operating-system, terminal and JSON calls made by `Save` and `Load`. -/
structure OS where
  /-- Whether `os.IsNotExist(err)` holds for the error of `os.Stat(path)`. -/
  statNotExist : String → Bool
  /-- The call `ioutil.ReadFile(path)`. -/
  readFile : String → Except Error String
  /-- The error of `ioutil.WriteFile(path, data, 0600)`. -/
  writeFile : String → String → Option Error
  /-- The call `terminal.ReadPassword(0)`. -/
  readPassword : Except Error String
  /-- The call `json.Marshal(safe)`, its bytes as a string. -/
  marshal : Safe → String
  /-- The call `json.Unmarshal(data, &safe)` on a nil `safe`: the pointer it
  leaves (`none` is nil) and its error. -/
  unmarshal : String → Option Safe × Option Error

/-- The function `getPassword`. -/
def getPassword (os : OS) (_prompt : String) : Exec String :=
  match os.readPassword with
  | .error err => .fatal err
  | .ok password => .returned password

/-- The function `getMasterPassword`; the package variable `masterPassword` is
passed in and handed back with the result. -/
def getMasterPassword (os : OS) (masterPassword : String) (prompt : String) :
    Exec (String × String) :=
  if masterPassword = "" then
    match getPassword os prompt with
    | .returned password => .returned (password, password)
    | .fatal err => .fatal err
    | .panicked => .panicked
  else .returned (masterPassword, masterPassword)

/-- The method `(*Safe).toJson`. -/
def toJson (os : OS) (safe : Safe) : String := os.marshal safe

/-- What a returning `Save` leaves behind. -/
structure SaveResult where
  /-- The returned `err`. -/
  err : Option Error
  /-- The path given to `ioutil.WriteFile`. -/
  writtenPath : String
  /-- The data given to `ioutil.WriteFile`. -/
  writtenData : String
  /-- The package variable `masterPassword` after the call. -/
  masterPassword : String
  deriving DecidableEq, Repr

/-- The method `(*Safe).Save`. -/
def Save {σ : Type} (os : OS) (lib : Encryptor σ) (masterPassword : String) (safe : Safe)
    (safePath : String) : Exec SaveResult :=
  let json := toJson os safe
  match getMasterPassword os masterPassword "Enter a master password to lock your safe" with
  | .fatal err => .fatal err
  | .panicked => .panicked
  | .returned (password, masterPassword) =>
    let (encryptedSafe, _err) := EncryptText lib json password
    let err := os.writeFile safePath encryptedSafe
    .returned ⟨err, safePath, encryptedSafe, masterPassword⟩

/-- The function `Exists`. -/
def Exists (os : OS) (safePath : String) : Bool :=
  if os.statNotExist safePath then false else true

/-- The function `Load`: `(safe, err)` and the package variable
`masterPassword` after the call. -/
def Load {β κ μ : Type} (os : OS) (lib : Decryptor β κ μ) (masterPassword : String)
    (safePath : String) : Exec ((Option Safe × Option Error) × String) :=
  if !Exists os safePath then .returned ((none, some "Safe does not exist"), masterPassword)
  else
    match os.readFile safePath with
    | .error err => .returned ((none, some err), masterPassword)
    | .ok encryptedSafe =>
      match getMasterPassword os masterPassword "Enter a master password to unlock your safe" with
      | .fatal err => .fatal err
      | .panicked => .panicked
      | .returned (password, masterPassword) =>
        match DecryptText lib encryptedSafe password with
        | (_, some err) => .fatal err
        | (decryptedSafe, none) =>
          match os.unmarshal decryptedSafe with
          | (_, some err) => .fatal err
          | (none, none) => .panicked
          | (some safe, none) =>
            match safe.Data with
            | none => .returned ((some { safe with Data := some [] }, none), masterPassword)
            | some _ => .returned ((some safe, none), masterPassword)

/-! ## The password of the specification and the pieces it is compared through -/

/-- The character an accepted byte is turned into: `chars[c%charLen]`. -/
def encode (c : Nat) : Nat := chars.getD (c % charLen) 0

/-- The bytes of a batch that pass the test `c >= maxrb`, turned into characters. -/
def coded (cs : List Nat) : List Nat := (cs.filter fun c => decide (c < maxrb)).map encode

/-- Batch number `k` of a reader whose every read succeeds. -/
def batch (f : Nat → Nat → Nat) (length k : Nat) : List Nat :=
  (List.range (length + length / 4)).map fun j => f k j % 256

/-- The concatenation of `n` successive batches, from batch `k` on. -/
def batches (f : Nat → Nat → Nat) (length : Nat) : Nat → Nat → List Nat
  | _, 0 => []
  | k, n + 1 => batch f length k ++ batches f length (k + 1) n

/-- The size of the alphabet, as the specification names it. -/
def alphabetSize : Nat := chars.length

/-- The threshold of the specification: `256 − (256 mod alphabetSize)`. -/
def maxAccepted : Nat := 256 - (256 % alphabetSize)

/-- The password as the specification describes it: drop every byte
`≥ maxAccepted` from the stream, keep the first `length` remaining bytes in
order, and map each kept byte `b` to `alphabet[b mod alphabetSize]`. -/
def specPassword (stream : List Nat) (length : Nat) : List Nat :=
  (((stream.filter fun b => !decide (b ≥ maxAccepted)).take length).map
    fun b => chars.getD (b % alphabetSize) 0)

/-! ## Sample inputs -/

/-- A safe holding one credential under the alias `github`. -/
def sampleSafe : Safe :=
  ⟨1700000000, "bob", some [("github", ⟨"github", "bob", "s3cr3t", 1700000001⟩)]⟩

/-- The reply of the prompt closure once `failed` is set. -/
def refusal : PromptReply := (none, some "Unable to unlock safe with provided password")

/-- The text `json.Marshal` gives for `sampleSafe`. -/
def sampleJson : String :=
  "\x7b\"createdOn\":1700000000,\"createdBy\":\"bob\",\"data\":\x7b\"github\":\x7b\"alias\":\"github\",\"username\":\"bob\",\"password\":\"s3cr3t\",\"createdOn\":1700000001\x7d\x7d\x7d"

/-- An armored OpenPGP message, block type `PGP SIGNATURE` as `EncryptText`
writes it: `sampleJson` encrypted under the passphrase `right` (one
symmetric-key packet, AES-128, iterated and salted SHA-256, then the encrypted
data packet). -/
def sampleEnvelope : String :=
  "-----BEGIN PGP SIGNATURE-----\n\njA0EBwMITLhF7WrP6jhg0rwBW3ONNgPMDGcgrfaYfKEDiZyeV5GMBI5WUbnuxxbv\nwdO+7Nl82PqSu6zYg/oW4DVBjF9Mt06wUlERHYnYkHeT9aXRiJJjho7egGa+/ge5\ndGa3KvXi5aB44n0jHIZToeWSsJvff1EvBK+6JXN11er9yvOYdUJDJ4h88VilyITh\nlv/WQhMTi4ksIKblPtKB/lGpRYaJ54SbLfCrZCfQnYHbMtrR7TKDmSqRlIcut66p\nvKWOA69NfPfpSG4WFw==\n=BAgS\n-----END PGP SIGNATURE-----"

/-- What `openpgp.ReadMessage` does on the body of `sampleEnvelope`: it invokes
the prompt with no candidate keys and `symmetric = true`; the passphrase
`right` opens the message; any other passphrase fails the key check and the
prompt is invoked again; an error of the prompt is returned as it is. -/
def lockedMessage : ReadMessage Unit String :=
  .ask [] true fun first =>
    match first.2 with
    | some err => .result (.error err)
    | none =>
      if first.1 = some (bytesOf "right") then .result (.ok sampleJson)
      else .ask [] true fun second =>
        match second.2 with
        | some err => .result (.error err)
        | none => .result (.error "openpgp: incorrect key")

/-- A stand-in library that knows one message: `armor.Decode` finds the block of
`sampleEnvelope`, and answers `EOF` for every other text, as it does for a text
without a complete armor header; the message is read as `lockedMessage`. -/
def sampleDecryptor : Decryptor Unit Unit String :=
  ⟨fun text => if text = sampleEnvelope then .ok () else .error "EOF",
    fun _ => lockedMessage, fun md => .ok md⟩

/-- A stand-in system: every file exists and holds the lone armor header line
`-----BEGIN PGP SIGNATURE-----`, writes succeed, the terminal gives the
passphrase `wrong`. -/
def sampleOS : OS :=
  ⟨fun _ => false, fun _ => .ok "-----BEGIN PGP SIGNATURE-----", fun _ _ => none, .ok "wrong",
    fun _ => "\x7b\x7d", fun _ => (some ⟨0, "", none⟩, none)⟩

/-- A stand-in system with one file, `/home/bob/.pick.safe`, holding
`sampleEnvelope`; reading any other path fails; the terminal gives the
passphrase `wrong`; `json.Unmarshal` reads `sampleJson` as `sampleSafe` and
reports the empty text as `unexpected end of JSON input`. -/
def lockedOS : OS :=
  ⟨fun path => path != "/home/bob/.pick.safe",
    fun path => if path = "/home/bob/.pick.safe" then .ok sampleEnvelope
      else .error ("open " ++ path ++ ": no such file or directory"),
    fun _ _ => none, .ok "wrong", fun _ => sampleJson,
    fun text => if text = sampleJson then (some sampleSafe, none)
      else (none, some "unexpected end of JSON input")⟩

/-- A stand-in library whose `SymmetricallyEncrypt` fails, as it does when the
random source cannot supply a salt or session key. -/
def failingEncryptor : Encryptor String :=
  ⟨"", fun st => .ok (st ++ "-----BEGIN PGP SIGNATURE-----"),
    fun _ _ => .error "unexpected EOF", fun st _ => (st, none), id, id, id⟩

/-- A reader whose first two reads succeed, read `k` putting the low byte of
`k * 100 + 174 + j` at position `j` (for three bytes: 174, 175, 176, then 18,
19, 20), and whose third read fails. -/
def skippingReader : RandReader String := fun k =>
  if k < 2 then .ok fun j => k * 100 + 174 + j else .error "unexpected EOF"

/-- A reader that never fails and fills position `j` of every batch with `j`. -/
def countingReader : RandReader Unit := fun _ => .ok fun j => j

/-! ## Lemmas: the constants of the generator -/

theorem chars_length : chars.length = 88 := by decide

theorem charLen_eq : charLen = 88 := by decide

theorem maxrb_eq : maxrb = 176 := by decide

theorem chars_lookup (c : Nat) : chars[c % charLen]? = some (encode c) := by
  have h : c % charLen < chars.length := by
    rw [charLen_eq, chars_length]; exact Nat.mod_lt _ (by decide)
  simp [encode, List.getD, List.getElem?_eq_getElem h]

theorem encode_mem (c : Nat) : encode c ∈ chars := by
  have h := chars_lookup c
  exact List.getElem?_mem h

theorem coded_nil : coded [] = [] := rfl

theorem coded_cons_reject (c : Nat) (cs : List Nat) (h : c ≥ maxrb) :
    coded (c :: cs) = coded cs := by
  simp [coded, List.filter_cons, Nat.not_lt.mpr h]

theorem coded_cons_accept (c : Nat) (cs : List Nat) (h : ¬ c ≥ maxrb) :
    coded (c :: cs) = encode c :: coded cs := by
  simp [coded, List.filter_cons, Nat.lt_of_not_ge h]

theorem coded_append (xs ys : List Nat) : coded (xs ++ ys) = coded xs ++ coded ys := by
  simp [coded]

theorem coded_subset (cs : List Nat) : ∀ x ∈ coded cs, x ∈ chars := by
  intro x hx
  simp only [coded, List.mem_map] at hx
  obtain ⟨c, _, rfl⟩ := hx
  exact encode_mem c

theorem maxAccepted_eq : maxAccepted = maxrb := by decide

theorem alphabetSize_eq : alphabetSize = charLen := by decide

theorem specPassword_eq (stream : List Nat) (length : Nat) :
    specPassword stream length = (coded stream).take length := by
  have hfun : (fun b => !decide (b ≥ maxAccepted)) = fun c => decide (c < maxrb) := by
    funext b
    rw [maxAccepted_eq]
    by_cases h : b < maxrb
    · simp [h]
    · simp [h, Nat.le_of_not_lt h]
  have henc : (fun b => chars.getD (b % alphabetSize) 0) = encode := by
    funext b
    rw [alphabetSize_eq]; rfl
  rw [specPassword, hfun, henc, coded, List.map_take]

theorem accepted_length (stream : List Nat) :
    (stream.filter fun b => !decide (b ≥ maxAccepted)).length = (coded stream).length := by
  have hfun : (fun b => !decide (b ≥ maxAccepted)) = fun c => decide (c < maxrb) := by
    funext b
    rw [maxAccepted_eq]
    by_cases h : b < maxrb
    · simp [h]
    · simp [h, Nat.le_of_not_lt h]
  rw [hfun, coded, List.length_map]

/-! ## Lemmas: the loops of the generator -/

/-- The inner loop, with the buffer split at the write index. -/
theorem scanBatch_split (length : Nat) (cs : List Nat) :
    ∀ (pre suf : List Nat), suf ≠ [] → pre.length + suf.length = length →
      scanBatch length cs (pre ++ suf) pre.length =
        if (coded cs).length < suf.length then
          .running (pre ++ coded cs ++ suf.drop (coded cs).length)
            (pre.length + (coded cs).length)
        else .finished (pre ++ (coded cs).take suf.length) := by
  induction cs with
  | nil =>
    intro pre suf hsuf _
    have : 0 < suf.length := List.length_pos.mpr hsuf
    simp [scanBatch, coded_nil, this]
  | cons c rest ih =>
    intro pre suf hsuf hlen
    by_cases hc : c ≥ maxrb
    · rw [scanBatch, if_pos hc, coded_cons_reject c rest hc]
      exact ih pre suf hsuf hlen
    · rw [scanBatch, if_neg hc, coded_cons_accept c rest hc]
      simp only [chars_lookup]
      obtain ⟨s, suf1, rfl⟩ := List.exists_cons_of_ne_nil hsuf
      have hset : (pre ++ s :: suf1).set pre.length (encode c) =
          (pre ++ [encode c]) ++ suf1 := by
        simp [List.set_append_right]
      have hlt : pre.length < (pre ++ s :: suf1).length := by simp
      rw [if_pos hlt, hset]
      by_cases hlast : pre.length + 1 = length
      · have hnil : suf1 = [] := by
          simp only [List.length_cons] at hlen
          exact List.length_eq_zero.mp (by omega)
        subst hnil
        simp [hlast]
      · have hne : suf1 ≠ [] := by
          intro h; subst h; simp at hlen; omega
        rw [if_neg hlast]
        have hlen1 : (pre ++ [encode c]).length + suf1.length = length := by
          simp only [List.length_append, List.length_cons, List.length_nil] at hlen ⊢
          omega
        have key := ih (pre ++ [encode c]) suf1 hne hlen1
        have hpl : (pre ++ [encode c]).length = pre.length + 1 := by simp
        rw [hpl] at key
        rw [key]
        by_cases hfit : (coded rest).length < suf1.length
        · simp [hfit, Nat.add_assoc, Nat.add_comm 1]
        · simp [hfit]

theorem readFull_ok {ε : Type} (f : Nat → Nat → Nat) (length k : Nat) :
    readFull (fun k => (Except.ok (f k) : Except ε (Nat → Nat))) k (length + length / 4) =
      .ok (batch f length k) := rfl

/-- The outer loop when no read fails, with the buffer split at the write index. -/
theorem generateLoop_split {ε : Type} (f : Nat → Nat → Nat) (length : Nat) :
    ∀ (fuel k : Nat) (pre suf : List Nat), suf ≠ [] → pre.length + suf.length = length →
      generateLoop (fun k => (Except.ok (f k) : Except ε (Nat → Nat))) length fuel k
          (pre ++ suf) pre.length =
        if (coded (batches f length k fuel)).length < suf.length then none
        else some (.returned (pre ++ (coded (batches f length k fuel)).take suf.length) none) := by
  intro fuel
  induction fuel with
  | zero =>
    intro k pre suf hsuf _
    have : 0 < suf.length := List.length_pos.mpr hsuf
    simp [generateLoop, batches, coded_nil, this]
  | succ fuel ih =>
    intro k pre suf hsuf hlen
    rw [generateLoop, readFull_ok]
    simp only
    rw [scanBatch_split length (batch f length k) pre suf hsuf hlen, batches, coded_append]
    by_cases hfit : (coded (batch f length k)).length < suf.length
    · rw [if_pos hfit]
      simp only
      have hne : suf.drop (coded (batch f length k)).length ≠ [] := by
        intro h
        have := congrArg List.length h
        simp only [List.length_drop, List.length_nil] at this
        omega
      have hlen1 : (pre ++ coded (batch f length k)).length +
          (suf.drop (coded (batch f length k)).length).length = length := by
        simp only [List.length_append, List.length_drop]
        omega
      have key := ih (k + 1) (pre ++ coded (batch f length k))
        (suf.drop (coded (batch f length k)).length) hne hlen1
      rw [List.length_append] at key
      rw [key]
      simp only [List.length_append, List.length_drop]
      by_cases hrest : (coded (batches f length (k + 1) fuel)).length <
          suf.length - (coded (batch f length k)).length
      · have h2 : (coded (batch f length k)).length +
            (coded (batches f length (k + 1) fuel)).length < suf.length := by omega
        rw [if_pos hrest, if_pos h2]
      · have h2 : ¬ (coded (batch f length k)).length +
            (coded (batches f length (k + 1) fuel)).length < suf.length := by omega
        rw [if_neg hrest, if_neg h2]
        rw [List.take_append_eq_append_take, List.take_of_length_le (Nat.le_of_lt hfit),
          List.append_assoc]
    · rw [if_neg hfit]
      simp only
      have h2 : ¬ (coded (batch f length k)).length +
          (coded (batches f length (k + 1) fuel)).length < suf.length := by omega
      rw [List.length_append, if_neg h2, List.take_append_eq_append_take]
      have : suf.length - (coded (batch f length k)).length = 0 := by omega
      rw [this, List.take_zero, List.append_nil]

/-- The outer loop run on `fuel` batches from read `k` on looks at no other read. -/
theorem generateLoop_congr {ε : Type} (rd rd1 : RandReader ε) (length : Nat) :
    ∀ (fuel k : Nat) (passwordBuf : List Nat) (i : Nat),
      (∀ j, k ≤ j → j < k + fuel → rd j = rd1 j) →
      generateLoop rd length fuel k passwordBuf i =
        generateLoop rd1 length fuel k passwordBuf i := by
  intro fuel
  induction fuel with
  | zero => intro k passwordBuf i _; rfl
  | succ fuel ih =>
    intro k passwordBuf i hsame
    have hk : rd k = rd1 k := hsame k (Nat.le_refl k) (by omega)
    have hrest : ∀ (b : List Nat) (n : Nat),
        generateLoop rd length fuel (k + 1) b n = generateLoop rd1 length fuel (k + 1) b n :=
      fun b n => ih (k + 1) b n fun j h1 h2 => hsame j (by omega) (by omega)
    simp only [generateLoop, readFull, hk, hrest]

/-- Whatever the reader does, a run of the outer loop that ends returns either
the reader's error with an empty password or a full buffer of alphabet
characters. -/
theorem generateLoop_sound {ε : Type} (rd : RandReader ε) (length : Nat) :
    ∀ (fuel k : Nat) (pre suf : List Nat), suf ≠ [] → pre.length + suf.length = length →
      (∀ x ∈ pre, x ∈ chars) → ∀ r : GenOutcome ε,
      generateLoop rd length fuel k (pre ++ suf) pre.length = some r →
        (∃ e, (∃ j, rd j = .error e) ∧ r = .returned [] (some e)) ∨
        (∃ pw, r = .returned pw none ∧ pw.length = length ∧ ∀ x ∈ pw, x ∈ chars) := by
  intro fuel
  induction fuel with
  | zero =>
    intro k pre suf _ _ _ r h
    simp [generateLoop] at h
  | succ fuel ih =>
    intro k pre suf hsuf hlen hpre r h
    rw [generateLoop] at h
    cases hrd : rd k with
    | error e =>
      simp only [readFull, hrd, Option.some.injEq] at h
      exact Or.inl ⟨e, ⟨k, hrd⟩, h.symm⟩
    | ok g =>
      simp only [readFull, hrd] at h
      rw [scanBatch_split length _ pre suf hsuf hlen] at h
      by_cases hfit : (coded ((List.range (length + length / 4)).map fun j => g j % 256)).length <
          suf.length
      · rw [if_pos hfit] at h
        simp only at h
        rw [← List.length_append] at h
        refine ih (k + 1) _ _ ?_ ?_ ?_ r h
        · intro hnil
          have := congrArg List.length hnil
          simp only [List.length_drop, List.length_nil] at this
          omega
        · simp only [List.length_append, List.length_drop]
          omega
        · intro x hx
          rcases List.mem_append.mp hx with hx | hx
          · exact hpre x hx
          · exact coded_subset _ x hx
      · rw [if_neg hfit] at h
        simp only [Option.some.injEq] at h
        refine Or.inr ⟨_, h.symm, ?_, ?_⟩
        · simp only [List.length_append, List.length_take]
          omega
        · intro x hx
          rcases List.mem_append.mp hx with hx | hx
          · exact hpre x hx
          · exact coded_subset _ x (List.mem_of_mem_take hx)

/-! ## Lemmas: the credential map -/

theorem lookup_filter_self (m : CredMap) (k : String) :
    (m.filter fun e => e.1 != k).lookup k = none := by
  induction m with
  | nil => rfl
  | cons e rest ih =>
    obtain ⟨a, c⟩ := e
    by_cases h : a = k
    · have hb : (a != k) = false := by simp [h]
      rw [List.filter_cons]
      simp only [hb]
      exact ih
    · have hb : (a != k) = true := by simp [h]
      have hk : (k == a) = false := beq_false_of_ne fun hka => h hka.symm
      rw [List.filter_cons]
      simp only [hb, if_true]
      rw [List.lookup_cons, hk]
      exact ih

theorem lookup_filter_ne (m : CredMap) (k other : String) (hne : other ≠ k) :
    (m.filter fun e => e.1 != k).lookup other = m.lookup other := by
  induction m with
  | nil => rfl
  | cons e rest ih =>
    obtain ⟨a, c⟩ := e
    by_cases h : a = k
    · have hb : (a != k) = false := by simp [h]
      have ho : (other == a) = false := beq_false_of_ne fun hoa => hne (hoa.trans h)
      rw [List.filter_cons]
      simp only [hb]
      rw [List.lookup_cons, ho]
      exact ih
    · have hb : (a != k) = true := by simp [h]
      rw [List.filter_cons]
      simp only [hb, if_true]
      rw [List.lookup_cons, List.lookup_cons, ih]

theorem mapGet_mapSet_self (m : CredMap) (k : String) (v : Credential) :
    mapGet (some (mapSet m k v)) k = some v := by
  simp [mapGet, mapSet, List.lookup_cons]

theorem mapGet_mapDelete_self (d : Option CredMap) (k : String) :
    mapGet (mapDelete d k) k = none := by
  cases d with
  | none => rfl
  | some m => exact lookup_filter_self m k

theorem mapGet_mapDelete_ne (d : Option CredMap) (k other : String) (hne : other ≠ k) :
    mapGet (mapDelete d k) other = mapGet d other := by
  cases d with
  | none => rfl
  | some m => exact lookup_filter_ne m k other hne

/-! ## Lemmas: the prompt closure -/

theorem runReadMessage_failed {κ μ : Type} (password : String) (t : ReadMessage κ μ) :
    ∀ r ∈ (runReadMessage password t true).2, r = refusal := by
  induction t with
  | result md => simp [runReadMessage]
  | ask keys symmetric next ih =>
    intro r hr
    simp only [runReadMessage, prompt, if_true, List.mem_cons] at hr
    rcases hr with hr | hr
    · exact hr
    · exact ih _ r hr

theorem runReadMessage_fresh {κ μ : Type} (password : String) (t : ReadMessage κ μ) :
    (runReadMessage password t false).2 = [] ∨
      ∃ rest, (runReadMessage password t false).2 = (some (bytesOf password), none) :: rest ∧
        ∀ r ∈ rest, r = refusal := by
  cases t with
  | result md => exact Or.inl rfl
  | ask keys symmetric next =>
    refine Or.inr ⟨(runReadMessage password (next (some (bytesOf password), none)) true).2, ?_, ?_⟩
    · simp [runReadMessage, prompt]
    · exact runReadMessage_failed password _

theorem DecryptTextTraced_replies {β κ μ : Type} (lib : Decryptor β κ μ) (text password : String) :
    (DecryptTextTraced lib text password).2 = [] ∨
      ∃ armorBlock, (DecryptTextTraced lib text password).2 =
        (runReadMessage password (lib.readMessage armorBlock) false).2 := by
  unfold DecryptTextTraced
  cases lib.armorDecode text with
  | error err => exact Or.inl rfl
  | ok armorBlock =>
    refine Or.inr ⟨armorBlock, ?_⟩
    simp only
    rcases hrun : runReadMessage password (lib.readMessage armorBlock) false with ⟨md, replies⟩
    cases md with
    | error err => rfl
    | ok md =>
      simp only
      cases lib.readAll md <;> rfl

/-! ## The credential operations -/

/-- C1: on a safe with a non-nil mapping that already holds the alias,
`AddCredential` returns an error for any username, password and time, and the
safe it leaves is the safe it was given: mapping, `CreatedOn` and `CreatedBy`
unchanged. -/
theorem AddCredential_duplicate_rejected (safe : Safe) (m : CredMap) (aliasName : String)
    (cred : Credential) (username password : String) (now : Int)
    (hdata : safe.Data = some m) (hpresent : m.lookup aliasName = some cred) :
    ∃ err, AddCredential safe aliasName username password now = .returned (some err, safe) := by
  have hget : mapGet safe.Data aliasName = some cred := by rw [hdata]; exact hpresent
  simp only [AddCredential, hget]
  exact ⟨_, rfl⟩

/-- Adding `github` again to `sampleSafe` is refused and leaves `sampleSafe`. -/
theorem AddCredential_duplicate_rejected_witness :
    ∃ err, AddCredential sampleSafe "github" "alice" "other" 1700000500 =
      .returned (some err, sampleSafe) :=
  AddCredential_duplicate_rejected sampleSafe
    [("github", ⟨"github", "bob", "s3cr3t", 1700000001⟩)] "github"
    ⟨"github", "bob", "s3cr3t", 1700000001⟩ "alice" "other" 1700000500 rfl (by decide)

/-- C2: on a safe with a non-nil mapping that does not hold the alias,
`AddCredential` at time `now` returns no error, and `GetCredential` of that
alias on the safe it leaves returns, without error, the credential
`{alias, username, password, now}`. -/
theorem AddCredential_then_GetCredential (safe : Safe) (m : CredMap) (aliasName : String)
    (username password : String) (now : Int)
    (hdata : safe.Data = some m) (habsent : m.lookup aliasName = none) :
    ∃ safe1, AddCredential safe aliasName username password now = .returned (none, safe1) ∧
      GetCredential safe1 aliasName = (⟨aliasName, username, password, now⟩, none) := by
  have hget : mapGet safe.Data aliasName = none := by rw [hdata]; exact habsent
  refine ⟨{ safe with Data := some (mapSet m aliasName ⟨aliasName, username, password, now⟩) },
    ?_, ?_⟩
  · unfold AddCredential
    rw [hget]
    simp only [hdata]
  · simp only [GetCredential, mapGet_mapSet_self]

/-- Adding `mail` to `sampleSafe` at time 1700000500 and reading it back. -/
theorem AddCredential_then_GetCredential_witness :
    ∃ safe1, AddCredential sampleSafe "mail" "alice" "pw" 1700000500 = .returned (none, safe1) ∧
      GetCredential safe1 "mail" = (⟨"mail", "alice", "pw", 1700000500⟩, none) :=
  AddCredential_then_GetCredential sampleSafe
    [("github", ⟨"github", "bob", "s3cr3t", 1700000001⟩)] "mail" "alice" "pw" 1700000500
    rfl (by decide)

/-- C3: `RemoveCredential` returns an error exactly when the alias is absent,
and then leaves the safe as it was; when the alias is present it returns no
error, `GetCredential` of that alias on the safe it leaves returns an error,
and `GetCredential` of every other alias returns what it returned before. -/
theorem RemoveCredential_spec (safe : Safe) (aliasName : String) :
    ((RemoveCredential safe aliasName).1.isSome = true ↔ mapGet safe.Data aliasName = none) ∧
      (mapGet safe.Data aliasName = none → (RemoveCredential safe aliasName).2 = safe) ∧
      (mapGet safe.Data aliasName ≠ none →
        (RemoveCredential safe aliasName).1 = none ∧
        (GetCredential (RemoveCredential safe aliasName).2 aliasName).2.isSome = true ∧
        ∀ other, other ≠ aliasName →
          GetCredential (RemoveCredential safe aliasName).2 other = GetCredential safe other) := by
  cases hget : mapGet safe.Data aliasName with
  | none =>
    simp [RemoveCredential, hget]
  | some cred =>
    refine ⟨by simp [RemoveCredential, hget], by simp, fun _ => ⟨?_, ?_, ?_⟩⟩
    · simp [RemoveCredential, hget]
    · simp [RemoveCredential, hget, GetCredential, mapGet_mapDelete_self]
    · intro other hne
      simp [RemoveCredential, hget, GetCredential, mapGet_mapDelete_ne _ _ _ hne]

/-- Removing `github` from `sampleSafe`, where it is present. -/
theorem RemoveCredential_spec_witness :
    (RemoveCredential sampleSafe "github").1 = none ∧
      (GetCredential (RemoveCredential sampleSafe "github").2 "github").2.isSome = true ∧
      ∀ other, other ≠ "github" →
        GetCredential (RemoveCredential sampleSafe "github").2 other =
          GetCredential sampleSafe other :=
  (RemoveCredential_spec sampleSafe "github").2.2 (by decide)

/-! ## The password generator -/

/-- C4: for `length > 0` and any behaviour of the random source, a run of
`GeneratePassword(length)` that returns gives either the empty password with an
error of the source, or no error and exactly `length` characters of the
alphabet; it never stops on a write index out of range. -/
theorem GeneratePassword_full_or_error {ε : Type} (rd : RandReader ε) (length fuel : Nat)
    (hpos : 0 < length) (r : GenOutcome ε) (h : GeneratePassword rd length fuel = some r) :
    r ≠ .indexPanic ∧
      ((∃ e, (∃ j, rd j = .error e) ∧ r = .returned [] (some e)) ∨
        (∃ pw, r = .returned pw none ∧ pw.length = length ∧ ∀ x ∈ pw, x ∈ chars)) := by
  have hne : List.replicate length 0 ≠ [] := by
    intro hnil
    have := congrArg List.length hnil
    simp only [List.length_replicate, List.length_nil] at this
    omega
  have hmain := generateLoop_sound rd length fuel 0 [] (List.replicate length 0) hne
    (by simp) (by simp) r (by simpa [GeneratePassword] using h)
  refine ⟨?_, hmain⟩
  rcases hmain with ⟨e, _, rfl⟩ | ⟨pw, rfl, _, _⟩ <;> simp

/-- Two characters from one batch of `countingReader`: the password `AB`. -/
theorem GeneratePassword_full_or_error_witness :
    GeneratePassword countingReader 2 1 = some (.returned [65, 66] none) ∧
      (GenOutcome.returned [65, 66] none : GenOutcome Unit) ≠ .indexPanic ∧
      ((∃ e, (∃ j, countingReader j = .error e) ∧
          (GenOutcome.returned [65, 66] none : GenOutcome Unit) = .returned [] (some e)) ∨
        (∃ pw, (GenOutcome.returned [65, 66] none : GenOutcome Unit) = .returned pw none ∧
          pw.length = 2 ∧ ∀ x ∈ pw, x ∈ chars)) :=
  ⟨by decide, GeneratePassword_full_or_error countingReader 2 1 (by decide) _ (by decide)⟩

/-- C5: for `length > 0` and a reader whose first `fuel` reads succeed, the run
of `GeneratePassword(length)` over these `fuel` batches returns exactly when the
batches hold at least `length` bytes below `maxAccepted`, and it then returns,
without error, the password of the specification: the concatenated batches with
every byte `≥ maxAccepted` dropped, cut to the first `length` bytes, each mapped
to `alphabet[b mod alphabetSize]`. -/
theorem GeneratePassword_refines_spec {ε : Type} (rd : RandReader ε) (f : Nat → Nat → Nat)
    (length fuel : Nat) (hpos : 0 < length) (hok : ∀ k, k < fuel → rd k = .ok (f k)) :
    GeneratePassword rd length fuel =
      if length ≤ ((batches f length 0 fuel).filter fun b => !decide (b ≥ maxAccepted)).length
      then some (.returned (specPassword (batches f length 0 fuel) length) none)
      else none := by
  have hne : List.replicate length 0 ≠ [] := by
    intro hnil
    have := congrArg List.length hnil
    simp only [List.length_replicate, List.length_nil] at this
    omega
  have hsame := generateLoop_congr rd (fun k => (Except.ok (f k) : Except ε (Nat → Nat))) length
    fuel 0 (List.replicate length 0) 0 fun j _ h2 => hok j (by omega)
  have hmain := generateLoop_split (ε := ε) f length fuel 0 [] (List.replicate length 0) hne
    (by simp)
  simp only [List.nil_append, List.length_nil, List.length_replicate] at hmain
  rw [GeneratePassword, hsame, hmain, accepted_length, specPassword_eq]
  by_cases hshort : (coded (batches f length 0 fuel)).length < length
  · rw [if_pos hshort, if_neg (by omega)]
  · rw [if_neg hshort, if_pos (by omega)]

/-- Three characters from two batches of `skippingReader`: byte 176 of the
first batch is dropped, the third character comes from the second batch. -/
theorem GeneratePassword_refines_spec_witness :
    GeneratePassword skippingReader 3 1 = none ∧
      GeneratePassword skippingReader 3 2 = some (.returned [96, 126, 83] none) ∧
      specPassword (batches (fun k j => k * 100 + 174 + j) 3 0 2) 3 = [96, 126, 83] ∧
      GeneratePassword skippingReader 3 2 =
        if 3 ≤ ((batches (fun k j => k * 100 + 174 + j) 3 0 2).filter
          fun b => !decide (b ≥ maxAccepted)).length
        then some (.returned (specPassword (batches (fun k j => k * 100 + 174 + j) 3 0 2) 3) none)
        else none :=
  ⟨by decide, by decide, by decide,
    GeneratePassword_refines_spec skippingReader (fun k j => k * 100 + 174 + j) 3 2 (by decide)
      (fun k hk => by
        have h : k = 0 ∨ k = 1 := by omega
        rcases h with rfl | rfl <;> rfl)⟩

set_option maxRecDepth 1000000 in
/-- C6: the alphabet of `GeneratePassword` has no repeated character, its size
and the threshold `maxrb = 256 − (256 mod n)` fit a byte unchanged, and every
alphabet character is `chars[b % charLen]` for exactly `maxrb / charLen` of the
accepted byte values `b < maxrb` (here 2), so an accepted byte picks every
character equally often. -/
theorem rejection_sampling_unbiased :
    chars.Nodup ∧ charLen = chars.length ∧ maxrb = 256 - 256 % chars.length ∧
      0 < maxrb / charLen ∧
      ∀ ch ∈ chars,
        ((List.range 256).filter fun b =>
          decide (b < maxrb) && decide (chars[b % charLen]? = some ch)).length =
          maxrb / charLen := by
  decide

/-! ## Decryption, loading and saving -/

/-- C7: within one `DecryptText` call, whatever the library does and whatever
arguments it passes, the prompt closure answers its first invocation with the
passphrase bytes and no error, and every later invocation with an error and no
passphrase; so at most one reply of the call carries a passphrase. -/
theorem DecryptText_prompts_once {β κ μ : Type} (lib : Decryptor β κ μ) (text password : String) :
    (∀ (keys : List κ) (symmetric : Bool),
        prompt password false keys symmetric = ((some (bytesOf password), none), true) ∧
        prompt password true keys symmetric = ((none, some
          "Unable to unlock safe with provided password"), true)) ∧
      ((DecryptTextTraced lib text password).2 = [] ∨
        ∃ rest, (DecryptTextTraced lib text password).2 =
            (some (bytesOf password), none) :: rest ∧
          ∀ r ∈ rest, r = (none, some "Unable to unlock safe with provided password")) ∧
      ((DecryptTextTraced lib text password).2.filter fun r => r.1.isSome).length ≤ 1 := by
  have hshape : (DecryptTextTraced lib text password).2 = [] ∨
      ∃ rest, (DecryptTextTraced lib text password).2 =
          (some (bytesOf password), none) :: rest ∧ ∀ r ∈ rest, r = refusal := by
    rcases DecryptTextTraced_replies lib text password with h | ⟨armorBlock, h⟩
    · exact Or.inl h
    · rw [h]
      exact runReadMessage_fresh password _
  refine ⟨fun keys symmetric => ⟨rfl, rfl⟩, hshape, ?_⟩
  rcases hshape with h | ⟨rest, h, hrest⟩
  · rw [h]; simp
  · rw [h]
    have hnone : (rest.filter fun r => r.1.isSome) = [] := by
      rw [List.filter_eq_nil_iff]
      intro r hr
      rw [hrest r hr]
      simp [refusal]
    simp [List.filter_cons, hnone]

set_option maxRecDepth 100000 in
/-- C8, as stated, fails: the file exists and holds `sampleEnvelope`, the
passphrase typed is `wrong`; `DecryptText` returns an error and `Load` reaches
`log.Fatal`, so it returns nothing to its caller. -/
theorem Load_wrong_passphrase_is_fatal :
    Exists lockedOS "/home/bob/.pick.safe" = true ∧
      lockedOS.readFile "/home/bob/.pick.safe" = .ok sampleEnvelope ∧
      DecryptText sampleDecryptor sampleEnvelope "wrong" =
        ("", some "Unable to unlock safe with provided password") ∧
      Load lockedOS sampleDecryptor "" "/home/bob/.pick.safe" =
        .fatal "Unable to unlock safe with provided password" ∧
      ¬ ∃ r, Load lockedOS sampleDecryptor "" "/home/bob/.pick.safe" = .returned r := by
  have hfatal : Load lockedOS sampleDecryptor "" "/home/bob/.pick.safe" =
      .fatal "Unable to unlock safe with provided password" := by decide
  refine ⟨by decide, rfl, by decide, hfatal, ?_⟩
  rintro ⟨r, hr⟩
  rw [hfatal] at hr
  cases hr

/-- C8, as the code has it: `Load` returns an error to its caller when the file
does not exist or cannot be read, and only then: a returned error is `Safe does
not exist` for a missing file or the error of `ioutil.ReadFile`. For an
existing, readable file whose master password is at hand, a failure of
`DecryptText` or of `json.Unmarshal` makes `Load` call `log.Fatal` with that
error, which ends the process. -/
theorem Load_failure_modes {β κ μ : Type} (os : OS) (lib : Decryptor β κ μ)
    (masterPassword safePath : String) :
    (Exists os safePath = false →
        Load os lib masterPassword safePath =
          .returned ((none, some "Safe does not exist"), masterPassword)) ∧
      (∀ err, Exists os safePath = true → os.readFile safePath = .error err →
        Load os lib masterPassword safePath = .returned ((none, some err), masterPassword)) ∧
      (∀ encryptedSafe password cached err, Exists os safePath = true →
        os.readFile safePath = .ok encryptedSafe →
        getMasterPassword os masterPassword "Enter a master password to unlock your safe" =
          .returned (password, cached) →
        (DecryptText lib encryptedSafe password).2 = some err →
        Load os lib masterPassword safePath = .fatal err) ∧
      (∀ encryptedSafe password cached decryptedSafe err, Exists os safePath = true →
        os.readFile safePath = .ok encryptedSafe →
        getMasterPassword os masterPassword "Enter a master password to unlock your safe" =
          .returned (password, cached) →
        DecryptText lib encryptedSafe password = (decryptedSafe, none) →
        (os.unmarshal decryptedSafe).2 = some err →
        Load os lib masterPassword safePath = .fatal err) ∧
      (∀ safe err cached,
        Load os lib masterPassword safePath = .returned ((safe, some err), cached) →
        safe = none ∧ cached = masterPassword ∧
          ((Exists os safePath = false ∧ err = "Safe does not exist") ∨
            (Exists os safePath = true ∧ os.readFile safePath = .error err))) := by
  refine ⟨?_, ?_, ?_, ?_, ?_⟩
  · intro hex
    simp [Load, hex]
  · intro err hex hread
    simp [Load, hex, hread]
  · intro encryptedSafe password cached err hex hread hpw hdec
    rcases hd : DecryptText lib encryptedSafe password with ⟨txt, e⟩
    rw [hd] at hdec
    simp only at hdec
    subst hdec
    simp [Load, hex, hread, hpw, hd]
  · intro encryptedSafe password cached decryptedSafe err hex hread hpw hdec hjson
    rcases hu : os.unmarshal decryptedSafe with ⟨ptr, e⟩
    rw [hu] at hjson
    simp only at hjson
    subst hjson
    simp [Load, hex, hread, hpw, hdec, hu]
  · intro safe err cached hret
    cases hex : Exists os safePath with
    | false =>
      simp [Load, hex] at hret
      obtain ⟨⟨h1, h2⟩, h3⟩ := hret
      exact ⟨h1.symm, h3.symm, Or.inl ⟨rfl, h2.symm⟩⟩
    | true =>
      cases hread : os.readFile safePath with
      | error e =>
        simp [Load, hex, hread] at hret
        obtain ⟨⟨h1, h2⟩, h3⟩ := hret
        subst h2
        exact ⟨h1.symm, h3.symm, Or.inr ⟨rfl, rfl⟩⟩
      | ok encryptedSafe =>
        exfalso
        simp only [Load, hex, hread] at hret
        cases hpw : getMasterPassword os masterPassword
            "Enter a master password to unlock your safe" with
        | fatal e => simp [hpw] at hret
        | panicked => simp [hpw] at hret
        | returned pair =>
          obtain ⟨password, mp⟩ := pair
          simp only [hpw] at hret
          rcases hd : DecryptText lib encryptedSafe password with ⟨txt, e⟩
          rw [hd] at hret
          cases e with
          | some e => simp at hret
          | none =>
            simp only at hret
            rcases hu : os.unmarshal txt with ⟨ptr, e2⟩
            rw [hu] at hret
            cases e2 with
            | some e2 => simp at hret
            | none =>
              cases ptr with
              | none => simp at hret
              | some sf =>
                simp only at hret
                cases hdata : sf.Data <;> simp [hdata] at hret

set_option maxRecDepth 100000 in
/-- On `lockedOS` with `sampleDecryptor`: the wrong passphrase ends the process,
a missing file gives a returned error, and a returned error comes from a
missing file; with the passphrase `right` at hand `Load` returns `sampleSafe`. -/
theorem Load_failure_modes_witness :
    Load lockedOS sampleDecryptor "" "/home/bob/.pick.safe" =
        .fatal "Unable to unlock safe with provided password" ∧
      Load lockedOS sampleDecryptor "" "/home/eve/.pick.safe" =
        .returned ((none, some "Safe does not exist"), "") ∧
      ((none : Option Safe) = none ∧ "" = "" ∧
        ((Exists lockedOS "/home/eve/.pick.safe" = false ∧
            "Safe does not exist" = "Safe does not exist") ∨
          (Exists lockedOS "/home/eve/.pick.safe" = true ∧
            lockedOS.readFile "/home/eve/.pick.safe" = .error "Safe does not exist"))) ∧
      Load lockedOS sampleDecryptor "right" "/home/bob/.pick.safe" =
        .returned ((some sampleSafe, none), "right") :=
  ⟨(Load_failure_modes lockedOS sampleDecryptor "" "/home/bob/.pick.safe").2.2.1
      sampleEnvelope "wrong" "wrong" "Unable to unlock safe with provided password"
      rfl rfl rfl (by decide),
    (Load_failure_modes lockedOS sampleDecryptor "" "/home/eve/.pick.safe").1 (by decide),
    (Load_failure_modes lockedOS sampleDecryptor "" "/home/eve/.pick.safe").2.2.2.2
      none "Safe does not exist" "" (by decide),
    by decide⟩

/-- C9 at the failing input: encryption of the serialized safe fails, yet `Save`
hands the empty text to `ioutil.WriteFile` and returns no error. -/
theorem Save_swallows_encrypt_error :
    EncryptText failingEncryptor (toJson sampleOS sampleSafe) "secret" =
        ("", some "unexpected EOF") ∧
      Save sampleOS failingEncryptor "secret" sampleSafe "/home/bob/.pick.safe" =
        .returned ⟨none, "/home/bob/.pick.safe", "", "secret"⟩ := by
  decide

/-! ## The size of the alphabet -/

/-- C10, as the code has it: the alphabet of `GeneratePassword` has exactly 88
characters, so `charLen = 88` and `maxrb = 256 − (256 mod 88) = 176`. -/
theorem alphabet_has_88_characters :
    chars.length = 88 ∧ charLen = 88 ∧ maxrb = 176 ∧ 256 - 256 % 88 = 176 := by
  decide

/-- C10, as stated, fails: the alphabet does not have 90 characters and the
threshold is not 180. -/
theorem alphabet_not_90_characters : ¬ (chars.length = 90 ∧ maxrb = 180) := by
  decide

end Pick
